import Mathlib

/-!
Shallow embedding of the row-processing and template-selection pipeline of
`src/app.py` (a Streamlit invoice mailer).  Python strings are modelled as
`List Char`; the Python `str` operations used by the script (`strip`,
`lower`, `replace`, `split`) are modelled by executable functions below.
Cells of the pandas `DataFrame` are modelled by the `Cell` type; a row is an
association list from column names to cells, mirroring `row.get(col, d)`.
-/

/-- Whitespace in the sense of Python's `str.strip()` (restricted to the
ASCII whitespace characters; the source data never contains the exotic
Unicode space characters). -/
def pyIsSpace (c : Char) : Bool :=
  c = ' ' || c = '\t' || c = '\n' || c = '\r' || c = '\x0b' || c = '\x0c'

/-- Upper/lower pairs for Python's `str.lower()`, restricted to ASCII
letters (the script only lowercases email addresses, template keys and
status words). -/
def upperLowerTable : List (Char × Char) :=
  [('A','a'), ('B','b'), ('C','c'), ('D','d'), ('E','e'), ('F','f'),
   ('G','g'), ('H','h'), ('I','i'), ('J','j'), ('K','k'), ('L','l'),
   ('M','m'), ('N','n'), ('O','o'), ('P','p'), ('Q','q'), ('R','r'),
   ('S','s'), ('T','t'), ('U','u'), ('V','v'), ('W','w'), ('X','x'),
   ('Y','y'), ('Z','z')]

/-- Lower-case one character (ASCII model of Python `str.lower`). -/
def lowerChar (c : Char) : Char :=
  ((upperLowerTable.find? (fun p => p.1 = c)).map (fun p => p.2)).getD c

/-- Model of Python `s.lower()`. -/
def pyLower (l : List Char) : List Char := l.map lowerChar

/-- Model of Python `s.strip()`: drop whitespace from both ends. -/
def pyStrip (l : List Char) : List Char :=
  (((l.dropWhile pyIsSpace).reverse).dropWhile pyIsSpace).reverse

/-- Model of Python `s.replace(a, b)` for single characters (the script
only uses `raw.replace(";", ",")`). -/
def pyReplace (a b : Char) (l : List Char) : List Char :=
  l.map (fun c => if c = a then b else c)

/-- Helper for `pySplit`: returns the first field (up to the first
separator) together with the remaining fields. -/
def pySplitAux (sep : Char) : List Char → List Char × List (List Char)
  | [] => ([], [])
  | c :: rest =>
    let r := pySplitAux sep rest
    if c = sep then ([], r.1 :: r.2) else (c :: r.1, r.2)

/-- Model of Python `s.split(sep)` for a single-character separator:
`"a,b".split(",") = ["a","b"]`, `"".split(",") = [""]`. -/
def pySplit (sep : Char) (l : List Char) : List (List Char) :=
  (pySplitAux sep l).1 :: (pySplitAux sep l).2

/-- Joining a list of strings with commas (used to state the round-trip
property of the recipient normalizer). -/
def joinComma : List (List Char) → List Char
  | [] => []
  | [a] => a
  | a :: b :: rest => a ++ ',' :: joinComma (b :: rest)

/-- Does `needle` occur at the start of `hay`? (Executable helper.) -/
def startsList : List Char → List Char → Bool
  | [], _ => true
  | _ :: _, [] => false
  | a :: as, b :: bs => a = b && startsList as bs

/-- Does `needle` occur contiguously anywhere inside `hay`? -/
def occursIn (needle : List Char) : List Char → Bool
  | [] => startsList needle []
  | c :: rest => startsList needle (c :: rest) || occursIn needle rest

/-- Accumulate the value of a string of decimal digits; fails on the first
non-digit.  Mirrors the digit part of Python's `int(str)`. -/
def parseDigitsAux : List Char → Nat → Option Nat
  | [], acc => Option.some acc
  | c :: rest, acc =>
    if c.isDigit then parseDigitsAux rest (acc * 10 + (c.toNat - 48))
    else Option.none

/-- Model of Python `int(s)` on a string: strip whitespace, optional sign,
then a nonempty run of decimal digits; anything else raises `ValueError`
(modelled as `none`).  (Python additionally allows underscores between
digits and non-ASCII digits; the model omits these.) -/
def pyIntOfChars (l : List Char) : Option Int :=
  match pyStrip l with
  | [] => Option.none
  | '+' :: ds =>
    match ds with
    | [] => Option.none
    | _ => (parseDigitsAux ds 0).map (fun n => (n : Int))
  | '-' :: ds =>
    match ds with
    | [] => Option.none
    | _ => (parseDigitsAux ds 0).map (fun n => -(n : Int))
  | ds => (parseDigitsAux ds 0).map (fun n => (n : Int))

/-- Model of a pandas cell value as the script observes it: a string, an
integer, a boolean, the float `nan` (how pandas renders blank cells), or
Python `None`.  (General floats are modelled as integers: the script only
ever converts `reminders_sent` with `int(...)` and renders fields with
`str(...)`.) -/
inductive Cell where
  | str : List Char → Cell
  | int : Int → Cell
  | bool : Bool → Cell
  | nan : Cell
  | none : Cell
deriving DecidableEq, Repr

/-- Python truthiness of a cell (`bool(value)`). -/
def pyTruthy : Cell → Bool
  | Cell.str s => s ≠ []
  | Cell.int n => n ≠ 0
  | Cell.bool b => b
  | Cell.nan => true
  | Cell.none => false

/-- Model of Python `a or b`. -/
def pyOr (a b : Cell) : Cell := if pyTruthy a then a else b

/-- Model of Python `str(value)` on a cell. -/
def pyStr : Cell → List Char
  | Cell.str s => s
  | Cell.int n => (toString n).data
  | Cell.bool b => if b then "True".data else "False".data
  | Cell.nan => "nan".data
  | Cell.none => "None".data

/-- Model of Python `int(value)` on a cell; `none` models the raised
`ValueError`/`TypeError` (e.g. `int(float("nan"))` and `int("abc")`
both raise). -/
def pyInt : Cell → Option Int
  | Cell.str s => pyIntOfChars s
  | Cell.int n => Option.some n
  | Cell.bool b => Option.some (if b then 1 else 0)
  | Cell.nan => Option.none
  | Cell.none => Option.none

/-- Row of the spreadsheet: an association list from column names to cell
values (the order of bindings mirrors the pandas `Series` index). -/
abbrev Row : Type := List (List Char × Cell)

/-- Model of pandas `row.get(key, default)`. -/
def rowGet (row : Row) (k : List Char) (d : Cell) : Cell :=
  match row.find? (fun p => p.1 = k) with
  | Option.none => d
  | Option.some p => p.2

/-- Model of `df.at[idx, k] = v`: replace the binding for `k`, appending a
new column at the end when absent. -/
def rowSet (row : Row) (k : List Char) (v : Cell) : Row :=
  if (row.find? (fun p => p.1 = k)).isSome then
    row.map (fun p => if p.1 = k then (k, v) else p)
  else
    row ++ [(k, v)]

example : pyStrip "  a b ".data = "a b".data := by decide
example : pyLower "AbC".data = "abc".data := by decide
example : pySplit ',' "a,b".data = ["a".data, "b".data] := by decide
example : pySplit ',' "".data = ["".data] := by decide
example : pyIntOfChars " 12 ".data = Option.some 12 := by decide
example : pyIntOfChars "-4".data = Option.some (-4) := by decide
example : pyIntOfChars "abc".data = Option.none := by decide
example : pyIntOfChars "".data = Option.none := by decide
example : occursIn "429".data "code 429 seen".data = true := by decide

/-- Recipient entry: models the Graph payload shape
`\x7b"emailAddress": \x7b"address": a\x7d\x7d` built by the script. -/
structure Recipient where
  address : List Char
deriving DecidableEq, Repr

/-- Null-like tokens of `parse_recipients` (`{"nan", "none", "null"}`). -/
def isNullLike (a : List Char) : Bool :=
  a = "nan".data || a = "none".data || a = "null".data

/-- Accumulator loop of `parse_recipients` (src/app.py lines 74-81): walk
the cleaned tokens, skip null-like ones, and keep first occurrences using
the `seen` set. -/
def accumRecipients : List (List Char) → List (List Char) → List Recipient
  | _, [] => []
  | seen, a :: rest =>
    if isNullLike a then accumRecipients seen rest
    else if a ∈ seen then accumRecipients seen rest
    else ⟨a⟩ :: accumRecipients (a :: seen) rest

/-- Model of `parse_recipients` (src/app.py lines 67-82).  The argument is
`none` for Python `None`; otherwise it is `str(value)`. -/
def parse_recipients : Option (List Char) → List Recipient
  | Option.none => []
  | Option.some v =>
    let raw := pyStrip v
    if raw = [] || isNullLike (pyLower raw) then []
    else
      let raw2 := pyReplace ';' ',' raw
      let toks := ((pySplit ',' raw2).filter (fun x => pyStrip x ≠ [])).map
        (fun x => pyLower (pyStrip x))
      accumRecipients [] toks

/-- First-seen-order deduplication, written the way the spec describes it
("deduplicate preserving first-seen order"). -/
def firstDedup : List (List Char) → List (List Char)
  | [] => []
  | a :: l => a :: (firstDedup l).filter (fun x => x ≠ a)

/-- Modelled from the spec's words for the Recipient Normalizer (§4.1):
"replace `;` with `,`, split on `,`, trim whitespace, lower-case, drop
empty tokens and the same null-like tokens, deduplicate preserving
first-seen order, wrap each surviving address as a recipient entry"; with
`None`/empty/null-like input giving the empty result.  Used only to be
compared against `parse_recipients`. -/
def spec_normalize : Option (List Char) → List Recipient
  | Option.none => []
  | Option.some v =>
    let raw := pyStrip v
    if raw = [] || isNullLike (pyLower raw) then []
    else
      let toks := (pySplit ',' (pyReplace ';' ',' raw)).map
        (fun x => pyLower (pyStrip x))
      let good := toks.filter (fun a => a ≠ [] && !isNullLike a)
      (firstDedup good).map (fun a => ⟨a⟩)

example : parse_recipients (Option.some " A@x.com; b@y.com ,a@x.com,, nan ".data)
    = [⟨"a@x.com".data⟩, ⟨"b@y.com".data⟩] := by decide
example : spec_normalize (Option.some " A@x.com; b@y.com ,a@x.com,, nan ".data)
    = [⟨"a@x.com".data⟩, ⟨"b@y.com".data⟩] := by decide
example : parse_recipients (Option.some "  NaN ".data) = [] := by decide
example : parse_recipients Option.none = [] := by decide

lemma firstDedup_nil : firstDedup [] = [] := rfl

lemma firstDedup_cons (a : List Char) (l : List (List Char)) :
    firstDedup (a :: l) = a :: (firstDedup l).filter (fun x => x ≠ a) := rfl

lemma mem_firstDedup {x : List Char} : ∀ {l : List (List Char)},
    x ∈ firstDedup l → x ∈ l := by
  intro l
  induction l with
  | nil => intro h; exact absurd h (by simp [firstDedup])
  | cons a rest ih =>
    intro h
    rcases List.mem_cons.mp h with h1 | h2
    · exact h1 ▸ List.mem_cons_self _ _
    · exact List.mem_cons_of_mem _ (ih (List.mem_of_mem_filter h2))

lemma firstDedup_nodup : ∀ (l : List (List Char)), (firstDedup l).Nodup := by
  intro l
  induction l with
  | nil => simp [firstDedup]
  | cons a rest ih =>
    refine List.nodup_cons.mpr ⟨?_, ih.filter _⟩
    intro hmem
    have := List.of_mem_filter hmem
    simp at this

lemma filter_firstDedup (p : List Char → Bool) : ∀ (l : List (List Char)),
    (firstDedup l).filter p = firstDedup (l.filter p) := by
  intro l
  induction l with
  | nil => simp [firstDedup]
  | cons a rest ih =>
    by_cases hp : p a
    · rw [firstDedup_cons, List.filter_cons_of_pos hp, List.filter_comm, ih,
        List.filter_cons_of_pos hp, firstDedup_cons]
    · rw [firstDedup_cons, List.filter_cons_of_neg hp, List.filter_cons_of_neg hp,
        List.filter_comm, ih]
      refine List.filter_eq_self.mpr ?_
      intro x hx
      have hxl : x ∈ rest.filter p := mem_firstDedup hx
      have hpx : p x := List.of_mem_filter hxl
      simp only [decide_eq_true_eq]
      intro hxa
      rw [hxa] at hpx
      exact hp hpx

lemma accumRecipients_eq (l : List (List Char)) : ∀ (seen : List (List Char)),
    accumRecipients seen l =
      (firstDedup (l.filter
        (fun a => !isNullLike a && !decide (a ∈ seen)))).map Recipient.mk := by
  induction l with
  | nil => intro seen; rfl
  | cons a rest ih =>
    intro seen
    by_cases hn : isNullLike a
    · rw [accumRecipients, if_pos hn, List.filter_cons_of_neg (by simp [hn]), ih]
    · by_cases hs : a ∈ seen
      · rw [accumRecipients, if_neg (by simp [hn]), if_pos hs,
          List.filter_cons_of_neg (by simp [hn, hs]), ih]
      · rw [accumRecipients, if_neg (by simp [hn]), if_neg hs,
          List.filter_cons_of_pos (by simp [hn, hs]), firstDedup_cons, List.map_cons,
          ih (a :: seen)]
        have harg : rest.filter (fun x => !isNullLike x && !decide (x ∈ a :: seen))
            = (rest.filter (fun x => !isNullLike x && !decide (x ∈ seen))).filter
                (fun x => x ≠ a) := by
          rw [List.filter_comm, List.filter_filter]
          refine List.filter_congr ?_
          intro x _
          by_cases h1 : isNullLike x <;> by_cases h2 : x ∈ seen <;>
            by_cases h3 : x = a <;> simp [h1, h2, h3]
        rw [harg, filter_firstDedup]

/-- C2: the recipient normalizer computes exactly what the spec describes:
`None`/empty/null-like input gives the empty list, and otherwise the
`;`-to-`,` replaced, comma-split, trimmed, lower-cased tokens survive with
empty and null-like ones dropped, deduplicated in first-seen order and
wrapped as recipient entries. -/
theorem parse_recipients_eq_spec_normalize :
    ∀ (v : Option (List Char)), parse_recipients v = spec_normalize v := by
  intro v
  match v with
  | Option.none => rfl
  | Option.some s =>
    rw [parse_recipients, spec_normalize]
    by_cases h0 : pyStrip s = [] ∨ isNullLike (pyLower (pyStrip s))
    · have : (pyStrip s = [] || isNullLike (pyLower (pyStrip s))) = true := by
        rcases h0 with h | h
        · simp [h]
        · simp [h]
      simp only [this, if_pos]
    · have : (pyStrip s = [] || isNullLike (pyLower (pyStrip s))) = false := by
        push_neg at h0
        simp [h0.1, h0.2]
      simp only [this, Bool.false_eq_true, if_false]
      rw [accumRecipients_eq]
      have hseen : (fun a => !isNullLike a && !decide (a ∈ ([] : List (List Char))))
          = (fun a => !isNullLike a) := by
        funext a
        simp
      rw [hseen]
      rw [List.filter_map, List.filter_map, List.filter_filter]
      refine congrArg (List.map Recipient.mk) (congrArg firstDedup
        (congrArg (List.map (fun x => pyLower (pyStrip x))) ?_))
      refine List.filter_congr ?_
      intro x _
      simp only [Function.comp_apply]
      have hlen : (pyLower (pyStrip x) = []) ↔ (pyStrip x = []) := by
        simp [pyLower]
      by_cases he : pyStrip x = []
      · simp [he, pyLower]
      · have hne : pyLower (pyStrip x) ≠ [] := fun h => he (hlen.mp h)
        simp [he, hne, Bool.and_comm]

lemma map_fix_iff {α : Type} {f : α → α} : ∀ {l : List α},
    l.map f = l ↔ ∀ c ∈ l, f c = c := by
  intro l
  induction l with
  | nil => simp
  | cons a t ih =>
    constructor
    · intro h
      rw [List.map_cons] at h
      have h1 := List.head_eq_of_cons_eq h
      have h2 := List.tail_eq_of_cons_eq h
      intro c hc
      rcases List.mem_cons.mp hc with rfl | hc2
      · exact h1
      · exact ih.mp h2 c hc2
    · intro h
      rw [List.map_cons, h a (List.mem_cons_self _ _), ih.mpr
        (fun c hc => h c (List.mem_cons_of_mem _ hc))]

lemma lowerChar_structure (c : Char) :
    lowerChar c = c ∨ (c ∈ upperLowerTable.map (fun p => p.1)
      ∧ lowerChar c ∈ upperLowerTable.map (fun p => p.2)) := by
  cases h : upperLowerTable.find? (fun p => p.1 = c) with
  | none => exact Or.inl (by simp [lowerChar, h])
  | some p =>
    have hl : lowerChar c = p.2 := by simp [lowerChar, h]
    have hmem := List.mem_of_find?_eq_some h
    have hp := List.find?_some h
    simp only [decide_eq_true_eq] at hp
    exact Or.inr ⟨hp ▸ List.mem_map_of_mem _ hmem, hl ▸ List.mem_map_of_mem _ hmem⟩

lemma lowerTable_facts : ((upperLowerTable.map (fun p => p.2)) ++
    (upperLowerTable.map (fun p => p.1))).all
    (fun l => !pyIsSpace l && l ≠ ',' && l ≠ ';') = true := by decide

lemma lowerList_fix : (upperLowerTable.map (fun p => p.2)).all
    (fun l => lowerChar l = l) = true := by decide

lemma lowerChar_idem (c : Char) : lowerChar (lowerChar c) = lowerChar c := by
  rcases lowerChar_structure c with h | h
  · rw [h, h]
  · have := List.all_eq_true.mp lowerList_fix _ h.2
    simpa using this

lemma pyIsSpace_lowerChar (c : Char) : pyIsSpace (lowerChar c) = pyIsSpace c := by
  rcases lowerChar_structure c with h | h
  · rw [h]
  · have h1 := List.all_eq_true.mp lowerTable_facts _ (List.mem_append_left _ h.2)
    have h2 := List.all_eq_true.mp lowerTable_facts _ (List.mem_append_right _ h.1)
    simp only [Bool.and_eq_true, Bool.not_eq_true', decide_eq_true_eq] at h1 h2
    rw [h1.1.1, h2.1.1]

lemma lowerChar_eq_comma {c : Char} (h : lowerChar c = ',') : c = ',' := by
  rcases lowerChar_structure c with h2 | h2
  · rw [← h2, h]
  · have := List.all_eq_true.mp lowerTable_facts _ (List.mem_append_left _ h2.2)
    simp only [Bool.and_eq_true, Bool.not_eq_true', decide_eq_true_eq] at this
    exact absurd h this.1.2

lemma lowerChar_eq_semicolon {c : Char} (h : lowerChar c = ';') : c = ';' := by
  rcases lowerChar_structure c with h2 | h2
  · rw [← h2, h]
  · have := List.all_eq_true.mp lowerTable_facts _ (List.mem_append_left _ h2.2)
    simp only [Bool.and_eq_true, Bool.not_eq_true', decide_eq_true_eq] at this
    exact absurd h this.2

lemma lowerCharComp : lowerChar ∘ lowerChar = lowerChar := funext lowerChar_idem

lemma pyLower_idem (l : List Char) : pyLower (pyLower l) = pyLower l := by
  simp only [pyLower, List.map_map, lowerCharComp]

lemma head?_dropWhile {α : Type} {p : α → Bool} {l : List α} {c : α}
    (h : (l.dropWhile p).head? = Option.some c) : p c = false := by
  have h2 := List.head?_dropWhile_not p l
  rw [h] at h2
  exact h2

lemma dropWhile_eq_self_of_head {α : Type} {p : α → Bool} {l : List α}
    (h : ∀ c, l.head? = Option.some c → p c = false) : l.dropWhile p = l := by
  cases l with
  | nil => rfl
  | cons a t => exact List.dropWhile_cons_of_neg (by simp [h a rfl])

lemma getLast?_dropWhile {α : Type} {p : α → Bool} : ∀ {l : List α},
    l.dropWhile p ≠ [] → (l.dropWhile p).getLast? = l.getLast? := by
  intro l
  induction l with
  | nil => simp
  | cons a t ih =>
    intro hne
    by_cases h : p a
    · rw [List.dropWhile_cons_of_pos h] at hne ⊢
      rw [ih hne]
      have ht : t ≠ [] := by
        intro he
        rw [he] at hne
        exact hne rfl
      match t, ht with
      | b :: t', _ => rw [List.getLast?_cons_cons]
    · rw [List.dropWhile_cons_of_neg h]

lemma pyStrip_head {l : List Char} {c : Char}
    (h : (pyStrip l).head? = Option.some c) : pyIsSpace c = false := by
  rw [pyStrip, List.head?_reverse] at h
  have hne : ((l.dropWhile pyIsSpace).reverse).dropWhile pyIsSpace ≠ [] := by
    intro he
    rw [he] at h
    exact Option.noConfusion h
  rw [getLast?_dropWhile hne, List.getLast?_reverse] at h
  exact head?_dropWhile h

lemma pyStrip_last {l : List Char} {c : Char}
    (h : (pyStrip l).getLast? = Option.some c) : pyIsSpace c = false := by
  rw [pyStrip, List.getLast?_reverse] at h
  exact head?_dropWhile h

lemma pyStrip_eq_self {l : List Char}
    (h1 : ∀ c, l.head? = Option.some c → pyIsSpace c = false)
    (h2 : ∀ c, l.getLast? = Option.some c → pyIsSpace c = false) :
    pyStrip l = l := by
  rw [pyStrip, dropWhile_eq_self_of_head h1, dropWhile_eq_self_of_head
    (fun c hc => h2 c (by rwa [List.head?_reverse] at hc)), List.reverse_reverse]

lemma pyStrip_idem (l : List Char) : pyStrip (pyStrip l) = pyStrip l :=
  pyStrip_eq_self (fun _ h => pyStrip_head h) (fun _ h => pyStrip_last h)

lemma mem_of_mem_pyStrip {c : Char} {l : List Char} (h : c ∈ pyStrip l) : c ∈ l := by
  rw [pyStrip, List.mem_reverse] at h
  have h2 := (List.dropWhile_sublist (l := (l.dropWhile pyIsSpace).reverse)
    pyIsSpace).subset h
  rw [List.mem_reverse] at h2
  exact (List.dropWhile_sublist pyIsSpace).subset h2

lemma pyStrip_pyLower (l : List Char) : pyStrip (pyLower l) = pyLower (pyStrip l) := by
  have hcomp : (pyIsSpace ∘ lowerChar) = pyIsSpace := funext pyIsSpace_lowerChar
  rw [pyStrip, pyStrip, pyLower, pyLower, List.dropWhile_map, hcomp,
    ← List.map_reverse, List.dropWhile_map, hcomp, ← List.map_reverse]

lemma pySplitAux_chars (sep : Char) : ∀ (l : List Char),
    (∀ c ∈ (pySplitAux sep l).1, c ∈ l)
      ∧ (∀ a ∈ (pySplitAux sep l).2, ∀ c ∈ a, c ∈ l) := by
  intro l
  induction l with
  | nil => exact ⟨by simp [pySplitAux], by simp [pySplitAux]⟩
  | cons x rest ih =>
    by_cases h : x = sep
    · rw [pySplitAux]
      simp only [h, if_pos rfl]
      refine ⟨by simp, ?_⟩
      intro a ha c hc
      rcases List.mem_cons.mp ha with rfl | ha2
      · exact List.mem_cons_of_mem _ (ih.1 c hc)
      · exact List.mem_cons_of_mem _ (ih.2 a ha2 c hc)
    · rw [pySplitAux]
      simp only [if_neg h]
      constructor
      · intro c hc
        rcases List.mem_cons.mp hc with rfl | hc2
        · exact List.mem_cons_self _ _
        · exact List.mem_cons_of_mem _ (ih.1 c hc2)
      · intro a ha c hc
        exact List.mem_cons_of_mem _ (ih.2 a ha c hc)

lemma pySplitAux_no_sep (sep : Char) : ∀ (l : List Char),
    sep ∉ (pySplitAux sep l).1 ∧ ∀ a ∈ (pySplitAux sep l).2, sep ∉ a := by
  intro l
  induction l with
  | nil => exact ⟨by simp [pySplitAux], by simp [pySplitAux]⟩
  | cons x rest ih =>
    by_cases h : x = sep
    · rw [pySplitAux]
      simp only [h, if_pos rfl]
      refine ⟨by simp, ?_⟩
      intro a ha
      rcases List.mem_cons.mp ha with rfl | ha2
      · exact ih.1
      · exact ih.2 a ha2
    · rw [pySplitAux]
      simp only [if_neg h]
      constructor
      · intro hc
        rcases List.mem_cons.mp hc with heq | hc2
        · exact h heq.symm
        · exact ih.1 hc2
      · exact ih.2

lemma mem_pySplit_no_sep {sep : Char} {a l : List Char}
    (h : a ∈ pySplit sep l) : sep ∉ a := by
  rcases List.mem_cons.mp h with rfl | h2
  · exact (pySplitAux_no_sep sep l).1
  · exact (pySplitAux_no_sep sep l).2 a h2

lemma mem_pySplit_chars {sep : Char} {a l : List Char}
    (h : a ∈ pySplit sep l) {c : Char} (hc : c ∈ a) : c ∈ l := by
  rcases List.mem_cons.mp h with rfl | h2
  · exact (pySplitAux_chars sep l).1 c hc
  · exact (pySplitAux_chars sep l).2 a h2 c hc

lemma pySplitAux_no_sep_self {sep : Char} : ∀ {a : List Char},
    sep ∉ a → pySplitAux sep a = (a, []) := by
  intro a
  induction a with
  | nil => intro _; rfl
  | cons c t ih =>
    intro h
    rw [pySplitAux, ih (fun hm => h (List.mem_cons_of_mem _ hm)),
      if_neg (fun he => h (by rw [← he]; exact List.mem_cons_self _ _))]

lemma pySplitAux_append_eq {sep : Char} : ∀ {a : List Char} (rest : List Char),
    sep ∉ a → pySplitAux sep (a ++ sep :: rest)
      = (a, (pySplitAux sep rest).1 :: (pySplitAux sep rest).2) := by
  intro a
  induction a with
  | nil =>
    intro rest _
    rw [List.nil_append, pySplitAux, if_pos rfl]
  | cons c t ih =>
    intro rest h
    rw [List.cons_append, pySplitAux,
      ih rest (fun hm => h (List.mem_cons_of_mem _ hm)),
      if_neg (fun he => h (by rw [← he]; exact List.mem_cons_self _ _))]

lemma pySplit_joinComma : ∀ (t : List (List Char)) (b : List Char),
    (∀ a ∈ b :: t, ',' ∉ a) → pySplit ',' (joinComma (b :: t)) = b :: t := by
  intro t
  induction t with
  | nil =>
    intro b h
    rw [joinComma, pySplit, pySplitAux_no_sep_self (h b (List.mem_cons_self _ _))]
  | cons x t' ih =>
    intro b h
    rw [joinComma, pySplit, pySplitAux_append_eq _ (h b (List.mem_cons_self _ _))]
    have := ih x (fun a ha => h a (List.mem_cons_of_mem _ ha))
    rw [pySplit] at this
    rw [this]

lemma head?_joinComma {b : List Char} (t : List (List Char)) (hb : b ≠ []) :
    (joinComma (b :: t)).head? = b.head? := by
  cases t with
  | nil => rfl
  | cons x t' => rw [joinComma, List.head?_append_of_ne_nil _ hb]

lemma getLast?_joinComma : ∀ (t : List (List Char)) (b : List Char),
    (∀ a ∈ b :: t, a ≠ []) →
    ∃ a ∈ b :: t, (joinComma (b :: t)).getLast? = a.getLast? := by
  intro t
  induction t with
  | nil =>
    intro b _
    exact ⟨b, List.mem_cons_self _ _, rfl⟩
  | cons x t' ih =>
    intro b h
    obtain ⟨a, ha, heq⟩ := ih x (fun a ha => h a (List.mem_cons_of_mem _ ha))
    refine ⟨a, List.mem_cons_of_mem _ ha, ?_⟩
    rw [joinComma, List.getLast?_append_of_ne_nil _ (by simp), ← heq]
    have hne : joinComma (x :: t') ≠ [] := by
      intro he
      have hxne := h a (List.mem_cons_of_mem _ ha)
      rw [he] at heq
      simp only [List.getLast?_nil] at heq
      exact hxne (List.getLast?_eq_none_iff.mp heq.symm)
    match hj : joinComma (x :: t'), hne with
    | y :: ys, _ => rw [List.getLast?_cons_cons]

lemma mem_joinComma {c : Char} : ∀ {L : List (List Char)},
    c ∈ joinComma L → (∃ a ∈ L, c ∈ a) ∨ c = ',' := by
  intro L
  induction L with
  | nil => intro h; exact absurd h (by simp [joinComma])
  | cons b t ih =>
    intro h
    cases t with
    | nil => exact Or.inl ⟨b, List.mem_cons_self _ _, h⟩
    | cons x t' =>
      rw [joinComma] at h
      rcases List.mem_append.mp h with hb | hrest
      · exact Or.inl ⟨b, List.mem_cons_self _ _, hb⟩
      · rcases List.mem_cons.mp hrest with rfl | hj
        · exact Or.inr rfl
        · rcases ih hj with ⟨a, ha, hc⟩ | hc
          · exact Or.inl ⟨a, List.mem_cons_of_mem _ ha, hc⟩
          · exact Or.inr hc

/-- Token list of `parse_recipients` after splitting, trimming, lowering,
and dropping empty and null-like tokens (the loop body of the source keeps
exactly these, deduplicated). -/
def cleanToks (s : List Char) : List (List Char) :=
  ((((pySplit ',' (pyReplace ';' ',' (pyStrip s))).filter
      (fun x => pyStrip x ≠ [])).map
    (fun x => pyLower (pyStrip x))).filter (fun a => !isNullLike a))

lemma parse_recipients_rep (s : List Char)
    (h : (decide (pyStrip s = []) || isNullLike (pyLower (pyStrip s))) = false) :
    parse_recipients (Option.some s)
      = (firstDedup (cleanToks s)).map Recipient.mk := by
  rw [parse_recipients]
  simp only [h, Bool.false_eq_true, if_false]
  rw [accumRecipients_eq]
  have hseen : (fun a => !isNullLike a && !decide (a ∈ ([] : List (List Char))))
      = (fun a => !isNullLike a) := by
    funext a
    simp
  rw [hseen, cleanToks]

lemma not_mem_pyReplace {a b : Char} (hab : a ≠ b) (l : List Char) :
    a ∉ pyReplace a b l := by
  intro h
  rw [pyReplace] at h
  obtain ⟨d, _, hd⟩ := List.mem_map.mp h
  by_cases hda : d = a
  · rw [if_pos hda] at hd
    exact hab hd.symm
  · rw [if_neg hda] at hd
    exact hda hd

lemma cleanToks_props {s x : List Char} (hx : x ∈ cleanToks s) :
    pyStrip x = x ∧ pyLower x = x ∧ x ≠ [] ∧ isNullLike x = false
      ∧ ',' ∉ x ∧ ';' ∉ x := by
  rw [cleanToks] at hx
  have hnull : isNullLike x = false := by
    have := List.of_mem_filter hx
    simpa using this
  have hx2 := List.mem_of_mem_filter hx
  obtain ⟨y, hy, hyx⟩ := List.mem_map.mp hx2
  have hystrip : pyStrip y ≠ [] := by
    have := List.of_mem_filter hy
    simpa using this
  have hysplit := List.mem_of_mem_filter hy
  refine ⟨?_, ?_, ?_, hnull, ?_, ?_⟩
  · rw [← hyx, pyStrip_pyLower, pyStrip_idem]
  · rw [← hyx, pyLower_idem]
  · rw [← hyx, pyLower]
    simp [hystrip]
  · intro hc
    rw [← hyx, pyLower] at hc
    obtain ⟨d, hd, hdc⟩ := List.mem_map.mp hc
    have hdcomma : d = ',' := lowerChar_eq_comma hdc
    exact mem_pySplit_no_sep hysplit (hdcomma ▸ mem_of_mem_pyStrip hd)
  · intro hc
    rw [← hyx, pyLower] at hc
    obtain ⟨d, hd, hdc⟩ := List.mem_map.mp hc
    have hdsemi : d = ';' := lowerChar_eq_semicolon hdc
    have : (';' : Char) ∈ pyReplace ';' ',' (pyStrip s) :=
      mem_pySplit_chars hysplit (hdsemi ▸ mem_of_mem_pyStrip hd)
    exact not_mem_pyReplace (by decide) _ this

lemma isNullLike_no_comma {s : List Char} (h : isNullLike s = true) :
    (',' : Char) ∉ s := by
  rw [isNullLike] at h
  simp only [Bool.or_eq_true, decide_eq_true_eq] at h
  rcases h with (h | h) | h <;> subst h <;> decide

lemma firstDedup_eq_self_of_nodup : ∀ {l : List (List Char)},
    l.Nodup → firstDedup l = l := by
  intro l
  induction l with
  | nil => intro _; rfl
  | cons a t ih =>
    intro h
    rw [firstDedup_cons, ih (List.nodup_cons.mp h).2]
    congr 1
    refine List.filter_eq_self.mpr ?_
    intro x hx
    simp only [decide_eq_true_eq]
    intro he
    exact (List.nodup_cons.mp h).1 (he ▸ hx)

lemma parse_joinComma {D : List (List Char)} (hnd : D.Nodup)
    (hprops : ∀ a ∈ D, pyStrip a = a ∧ pyLower a = a ∧ a ≠ []
      ∧ isNullLike a = false ∧ ',' ∉ a ∧ ';' ∉ a) :
    parse_recipients (Option.some (joinComma D)) = D.map Recipient.mk := by
  cases D with
  | nil => rfl
  | cons b t =>
    have hb := hprops b (List.mem_cons_self _ _)
    have hhead : (joinComma (b :: t)).head? = b.head? := head?_joinComma t hb.2.2.1
    have hJne : joinComma (b :: t) ≠ [] := by
      intro he
      rw [he] at hhead
      cases hc : b.head? with
      | none => exact hb.2.2.1 (List.head?_eq_none_iff.mp hc)
      | some c => rw [hc] at hhead; exact Option.noConfusion hhead
    have hheadok : ∀ c, (joinComma (b :: t)).head? = Option.some c →
        pyIsSpace c = false := by
      intro c hc
      rw [hhead] at hc
      exact pyStrip_head (by rw [hb.1]; exact hc)
    have hlastok : ∀ c, (joinComma (b :: t)).getLast? = Option.some c →
        pyIsSpace c = false := by
      intro c hc
      obtain ⟨a, ha, heq⟩ := getLast?_joinComma t b (fun a ha => (hprops a ha).2.2.1)
      rw [heq] at hc
      exact pyStrip_last (by rw [(hprops a ha).1]; exact hc)
    have hstripJ : pyStrip (joinComma (b :: t)) = joinComma (b :: t) :=
      pyStrip_eq_self hheadok hlastok
    have hlowJ : pyLower (joinComma (b :: t)) = joinComma (b :: t) := by
      rw [pyLower]
      refine map_fix_iff.mpr ?_
      intro c hc
      rcases mem_joinComma hc with ⟨a, ha, hca⟩ | rfl
      · have hfix := (hprops a ha).2.1
        rw [pyLower] at hfix
        exact map_fix_iff.mp hfix c hca
      · decide
    have hnullJ : isNullLike (joinComma (b :: t)) = false := by
      cases t with
      | nil => exact hb.2.2.2.1
      | cons x t' =>
        have hcomma : (',' : Char) ∈ joinComma (b :: x :: t') := by
          rw [joinComma]
          exact List.mem_append_right _ (List.mem_cons_self _ _)
        exact Bool.eq_false_iff.mpr
          (fun hn => absurd hcomma (isNullLike_no_comma hn))
    have hrepl : pyReplace ';' ',' (joinComma (b :: t)) = joinComma (b :: t) := by
      rw [pyReplace]
      refine map_fix_iff.mpr ?_
      intro c hc
      rcases mem_joinComma hc with ⟨a, ha, hca⟩ | rfl
      · exact if_neg (fun he => (hprops a ha).2.2.2.2.2 (by rw [← he]; exact hca))
      · decide
    have hguard : (decide (pyStrip (joinComma (b :: t)) = [])
        || isNullLike (pyLower (pyStrip (joinComma (b :: t))))) = false := by
      rw [hstripJ, hlowJ, hnullJ]
      simp [hJne]
    rw [parse_recipients_rep _ hguard, cleanToks, hstripJ, hrepl,
      pySplit_joinComma t b (fun a ha => (hprops a ha).2.2.2.2.1)]
    have hfilter1 : (b :: t).filter (fun x => pyStrip x ≠ []) = b :: t := by
      refine List.filter_eq_self.mpr ?_
      intro a ha
      simp [(hprops a ha).1, (hprops a ha).2.2.1]
    rw [hfilter1]
    have hmap : (b :: t).map (fun x => pyLower (pyStrip x)) = b :: t := by
      refine map_fix_iff.mpr ?_
      intro a ha
      rw [(hprops a ha).1, (hprops a ha).2.1]
    rw [hmap]
    have hfilter2 : (b :: t).filter (fun a => !isNullLike a) = b :: t := by
      refine List.filter_eq_self.mpr ?_
      intro a ha
      simp [(hprops a ha).2.2.2.1]
    rw [hfilter2, firstDedup_eq_self_of_nodup hnd]

lemma parse_recipients_form (v : Option (List Char)) :
    ∃ D : List (List Char), parse_recipients v = D.map Recipient.mk ∧ D.Nodup ∧
      ∀ a ∈ D, pyStrip a = a ∧ pyLower a = a ∧ a ≠ []
        ∧ isNullLike a = false ∧ ',' ∉ a ∧ ';' ∉ a := by
  match v with
  | Option.none => exact ⟨[], rfl, List.nodup_nil, by simp⟩
  | Option.some s =>
    cases hg : (decide (pyStrip s = []) || isNullLike (pyLower (pyStrip s))) with
    | true =>
      refine ⟨[], ?_, List.nodup_nil, by simp⟩
      rw [parse_recipients]
      simp only [hg, if_true, List.map_nil]
    | false =>
      refine ⟨firstDedup (cleanToks s), parse_recipients_rep s hg,
        firstDedup_nodup _, ?_⟩
      intro a ha
      exact cleanToks_props (mem_firstDedup ha)

/-- C10: the recipient normalizer is idempotent: joining the addresses of
its output with commas and parsing again returns the same entries; and
every output address is already trimmed, lower-cased, non-empty, not
null-like, and occurs exactly once. -/
theorem parse_recipients_idempotent (v : Option (List Char)) :
    parse_recipients (Option.some (joinComma
        ((parse_recipients v).map (fun r => r.address)))) = parse_recipients v
    ∧ ((parse_recipients v).map (fun r => r.address)).Nodup
    ∧ ∀ r ∈ parse_recipients v,
        pyStrip r.address = r.address ∧ pyLower r.address = r.address
          ∧ r.address ≠ [] ∧ isNullLike r.address = false := by
  obtain ⟨D, hD, hnd, hprops⟩ := parse_recipients_form v
  have haddr : (parse_recipients v).map (fun r => r.address) = D := by
    rw [hD, List.map_map]
    exact List.map_id D
  refine ⟨?_, ?_, ?_⟩
  · rw [haddr, parse_joinComma hnd hprops, hD]
  · rw [haddr]
    exact hnd
  · intro r hr
    rw [hD] at hr
    obtain ⟨a, ha, rfl⟩ := List.mem_map.mp hr
    have h := hprops a ha
    exact ⟨h.1, h.2.1, h.2.2.1, h.2.2.2.1⟩

/-- Raised Python exceptions relevant to the pipeline: `ValueError` (bad
`int()` conversion, stray brace in a format string), `KeyError` (unknown
format placeholder), `IndexError` (positional format field with no
positional arguments). -/
inductive PyErr where
  | valueError : List Char → PyErr
  | keyError : List Char → PyErr
  | indexError : List Char → PyErr
deriving DecidableEq, Repr

deriving instance DecidableEq for Except

/-- Membership in the tuple `("first", "second", "final")`. -/
def isTemplateKey (k : List Char) : Prop :=
  k = "first".data ∨ k = "second".data ∨ k = "final".data

instance (k : List Char) : Decidable (isTemplateKey k) :=
  inferInstanceAs (Decidable (k = "first".data ∨ k = "second".data
    ∨ k = "final".data))

/-- Validity of the run-wide `default_template` as the source tests it
(`default_template in ("first", "second", "final")`; Python `None` is not
in the tuple). -/
def dtIsKey : Option (List Char) → Prop
  | Option.some d => isTemplateKey d
  | Option.none => False

instance (dt : Option (List Char)) : Decidable (dtIsKey dt) :=
  match dt with
  | Option.some d => inferInstanceAs (Decidable (isTemplateKey d))
  | Option.none => inferInstanceAs (Decidable False)

/-- The normalized row override:
`str(row.get("template_choice", "") or "").strip().lower()`
(src/app.py line 140). -/
def normalizedChoice (row : Row) : List Char :=
  pyLower (pyStrip (pyStr (pyOr (rowGet row "template_choice".data
    (Cell.str [])) (Cell.str []))))

/-- Reading of `int(row.get("reminders_sent", 0) or 0)` (src/app.py lines
145 and 250); `none` models the `ValueError` raised by `int(...)` on a
non-empty non-numeric string or on `nan`. -/
def readReminders (c : Cell) : Option Int := pyInt (pyOr c (Cell.int 0))

/-- Banding tail of `choose_template` (src/app.py lines 145-150),
including the `int(...)` conversion that can raise. -/
def bandReminders (row : Row) : Except PyErr (List Char) :=
  match readReminders (rowGet row "reminders_sent".data (Cell.int 0)) with
  | Option.none => Except.error (PyErr.valueError
      ("invalid literal for int() with base 10: ".data
        ++ pyStr (pyOr (rowGet row "reminders_sent".data (Cell.int 0))
          (Cell.int 0))))
  | Option.some rs =>
    if rs ≤ 0 then Except.ok "first".data
    else if rs = 1 then Except.ok "second".data
    else Except.ok "final".data

/-- Model of `choose_template` (src/app.py lines 139-150); when the
default passes the tuple test it is itself returned
(`default_template in ("first","second","final")` forces it to be
`some` of a key, so `getD []` extracts exactly that string). -/
def choose_template (row : Row) (default_template : Option (List Char)) :
    Except PyErr (List Char) :=
  if isTemplateKey (normalizedChoice row) then
    Except.ok (normalizedChoice row)
  else if dtIsKey default_template then Except.ok (default_template.getD [])
  else bandReminders row

/-- Modelled from the claim's words for the Template Selector: first the
normalized override when it is a key, else the run-wide default when it is
a key, else reminder-count banding (`<= 0` first, `== 1` second, `>= 2`
final).  Used only to be compared against `choose_template`. -/
def spec_select (tc : List Char) (dt : Option (List Char)) (rs : Int) :
    List Char :=
  if isTemplateKey tc then tc
  else if dtIsKey dt then dt.getD []
  else if rs ≤ 0 then "first".data
  else if rs = 1 then "second".data
  else "final".data

/-- Capped reminder update of the bookkeeping step
(`min(rs + 1, 3)`, src/app.py line 251). -/
def bookKeepRem (rs : Int) : Int := min (rs + 1) 3

/-- Iterated bookkeeping updates of the reminder counter. -/
def iterRem : Nat → Int → Int
  | 0, rs => rs
  | Nat.succ n, rs => iterRem n (bookKeepRem rs)

example : choose_template [("template_choice".data, Cell.str " Second ".data)]
    (Option.some "final".data) = Except.ok "second".data := by decide
example : choose_template [("reminders_sent".data, Cell.int 2)]
    Option.none = Except.ok "final".data := by decide
example : choose_template [("reminders_sent".data, Cell.str "soon".data)]
    Option.none = Except.error (PyErr.valueError
      "invalid literal for int() with base 10: soon".data) := by decide

lemma dtIsKey_getD {dt : Option (List Char)} (h : dtIsKey dt) :
    isTemplateKey (dt.getD []) := by
  cases dt with
  | none => exact absurd h (fun hf => hf)
  | some d => exact h

lemma bandReminders_spec {row : Row} {rs : Int}
    (hrs : readReminders (rowGet row "reminders_sent".data (Cell.int 0))
      = Option.some rs) :
    bandReminders row = Except.ok (if rs ≤ 0 then "first".data
        else if rs = 1 then "second".data else "final".data)
      ∧ isTemplateKey (if rs ≤ 0 then "first".data
        else if rs = 1 then "second".data else "final".data) := by
  have hmatch : bandReminders row = (if rs ≤ 0 then Except.ok "first".data
      else if rs = 1 then Except.ok "second".data
      else Except.ok "final".data) := by
    rw [bandReminders, hrs]
  rw [hmatch]
  constructor
  · split_ifs <;> rfl
  · split_ifs
    · exact Or.inl rfl
    · exact Or.inr (Or.inl rfl)
    · exact Or.inr (Or.inr rfl)

/-- C1 (amended): whenever the row's normalized `template_choice` is one
of the three keys, or the run-wide default is, or the row's
`reminders_sent` value converts with `int(...)`, the selector returns
exactly the key described by the spec's decision order (override, then
default, then banding with `<= 0` first, `== 1` second, `>= 2` final),
and that key is always one of first/second/final.  (Without the
conversion proviso the original claim fails: see the counterexample.) -/
theorem choose_template_spec (row : Row) (dt : Option (List Char))
    (h : isTemplateKey (normalizedChoice row) ∨ dtIsKey dt
      ∨ (readReminders (rowGet row "reminders_sent".data
          (Cell.int 0))).isSome = true) :
    choose_template row dt = Except.ok (spec_select (normalizedChoice row) dt
        ((readReminders (rowGet row "reminders_sent".data
          (Cell.int 0))).getD 0))
      ∧ isTemplateKey (spec_select (normalizedChoice row) dt
        ((readReminders (rowGet row "reminders_sent".data
          (Cell.int 0))).getD 0)) := by
  by_cases htc : isTemplateKey (normalizedChoice row)
  · rw [choose_template, spec_select, if_pos htc, if_pos htc]
    exact ⟨rfl, htc⟩
  · by_cases hd : dtIsKey dt
    · rw [choose_template, spec_select, if_neg htc, if_neg htc,
        if_pos hd, if_pos hd]
      exact ⟨rfl, dtIsKey_getD hd⟩
    · have hsome : (readReminders (rowGet row "reminders_sent".data
          (Cell.int 0))).isSome = true := by
        rcases h with h | h | h
        · exact absurd h htc
        · exact absurd h hd
        · exact h
      obtain ⟨rs, hrs⟩ := Option.isSome_iff_exists.mp hsome
      rw [choose_template, spec_select, if_neg htc, if_neg htc,
        if_neg hd, if_neg hd, hrs, Option.getD_some]
      exact bandReminders_spec hrs

/-- C1 witness: the explicit override `" Second "` wins over the valid
default `"final"` and normalizes to `second`. -/
theorem choose_template_spec_witness :
    choose_template [("template_choice".data, Cell.str " Second ".data)]
      (Option.some "final".data) = Except.ok "second".data := by
  have h := choose_template_spec
    [("template_choice".data, Cell.str " Second ".data)]
    (Option.some "final".data) (Or.inl (by decide))
  rw [h.1]
  decide

/-- C1 counterexample: a row whose `reminders_sent` holds the non-numeric
string `"soon"`, with no valid override and no valid default, makes
`choose_template` raise `ValueError` instead of returning a key, so the
selector is not total. -/
theorem choose_template_not_total :
    choose_template [("reminders_sent".data, Cell.str "soon".data)]
      Option.none = Except.error (PyErr.valueError
        "invalid literal for int() with base 10: soon".data) := by decide

/-- C4: starting from any non-negative reminder count, after any positive
number of bookkeeping updates `min(rs + 1, 3)` the count never exceeds 3. -/
theorem reminders_never_exceed_three (start : Int) (n : Nat)
    (h : 0 ≤ start) : iterRem (n + 1) start ≤ 3 := by
  induction n generalizing start with
  | zero => exact min_le_right _ _
  | succ n ih =>
    show iterRem (n + 1) (bookKeepRem start) ≤ 3
    refine ih _ ?_
    rw [bookKeepRem]
    exact le_min (by linarith) (by norm_num)

/-- C4 witness: five updates from 7 land at 3. -/
theorem reminders_never_exceed_three_witness :
    (0 : Int) ≤ 7 ∧ iterRem 5 7 ≤ 3 :=
  ⟨by decide, reminders_never_exceed_three 7 4 (by decide)⟩

/-- Name part of a format field: the text before a `:` format spec or a
`!` conversion (the two observed templates only use plain names; attribute
and index access inside fields is not modelled). -/
def fieldName (fld : List Char) : List Char :=
  fld.takeWhile (fun c => c ≠ ':' && c ≠ '!')

/-- Automaton for Python `str.format(**env)` restricted to brace-delimited
named fields.  `Option.none` state is literal text; `Option.some acc` is
inside a field with `acc` holding the reversed field characters.  Mirrors
CPython behavior on the observed patterns: `\x7b\x7b`/`\x7d\x7d` escapes,
`ValueError` on a stray brace, `IndexError` on an empty or numeric field
(no positional arguments are supplied), `KeyError` on a field name outside
`env`.  (Error message texts are simplified.) -/
def pyFormatAux (env : List (List Char × List Char)) :
    Option (List Char) → List Char → Except PyErr (List Char)
  | Option.none, [] => Except.ok []
  | Option.none, '{' :: '{' :: rest =>
    (pyFormatAux env Option.none rest).map (fun s => '{' :: s)
  | Option.none, '}' :: '}' :: rest =>
    (pyFormatAux env Option.none rest).map (fun s => '}' :: s)
  | Option.none, '{' :: rest => pyFormatAux env (Option.some []) rest
  | Option.none, '}' :: _ =>
    Except.error (PyErr.valueError
      "Single \x7d encountered in format string".data)
  | Option.none, c :: rest =>
    (pyFormatAux env Option.none rest).map (fun s => c :: s)
  | Option.some _, [] =>
    Except.error (PyErr.valueError
      "Single \x7b encountered in format string".data)
  | Option.some acc, '}' :: rest =>
    if (fieldName acc.reverse).all Char.isDigit then
      Except.error (PyErr.indexError
        "Replacement index out of range".data)
    else
      match env.find? (fun p => p.1 = fieldName acc.reverse) with
      | Option.none => Except.error (PyErr.keyError (fieldName acc.reverse))
      | Option.some p =>
        (pyFormatAux env Option.none rest).map (fun s => p.2 ++ s)
  | Option.some acc, c :: rest => pyFormatAux env (Option.some (c :: acc)) rest

/-- Model of Python `pattern.format(**env)` for named fields. -/
def pyFormat (env : List (List Char × List Char)) (l : List Char) :
    Except PyErr (List Char) :=
  pyFormatAux env Option.none l

/-- One template: a `subject` pattern and a `body_html` pattern. -/
structure Template where
  subject : List Char
  body_html : List Char
deriving DecidableEq, Repr

/-- The keyword arguments passed to `.format(...)` by `format_template`
(src/app.py lines 152-159): `name`, `invoice_no`, `amount`, each read with
default `""` and rendered with `str`. -/
def templateEnv (row : Row) : List (List Char × List Char) :=
  [("name".data, pyStr (rowGet row "name".data (Cell.str []))),
   ("invoice_no".data, pyStr (rowGet row "invoice_no".data (Cell.str []))),
   ("amount".data, pyStr (rowGet row "amount".data (Cell.str [])))]

/-- Model of `format_template` (src/app.py lines 152-159). -/
def format_template (tpl : Template) (row : Row) :
    Except PyErr (List Char × List Char) :=
  match pyFormat (templateEnv row) tpl.subject with
  | Except.error e => Except.error e
  | Except.ok subject =>
    match pyFormat (templateEnv row) tpl.body_html with
    | Except.error e => Except.error e
    | Except.ok body_html => Except.ok (subject, body_html)

example : format_template ⟨"Invoice {invoice_no}".data, "Dear {name}, {amount} TL".data⟩
    [("name".data, Cell.str "Ada".data), ("invoice_no".data, Cell.str "42".data),
     ("amount".data, Cell.int 10)]
    = Except.ok ("Invoice 42".data, "Dear Ada, 10 TL".data) := by decide
example : format_template ⟨"Hi {client_name}".data, "b".data⟩ []
    = Except.error (PyErr.keyError "client_name".data) := by decide
example : pyFormat [] "a\x7db".data = Except.error (PyErr.valueError
    "Single \x7d encountered in format string".data) := by decide
example : pyFormat [("name".data, "x".data)] "\x7b\x7bname\x7d\x7d".data
    = Except.ok "{name}".data := by decide

/-- Base64 alphabet. -/
def b64Alphabet : List Char :=
  "ABCDEFGHIJKLMNOPQRSTUVWXYZabcdefghijklmnopqrstuvwxyz0123456789+/".data

/-- Character for a 6-bit group. -/
def b64Char (n : Nat) : Char := b64Alphabet.getD n '='

/-- Standard base64 of a byte list (bytes as `Nat < 256`), as
`base64.b64encode` produces. -/
def base64Encode : List Nat → List Char
  | [] => []
  | [b0] => [b64Char (b0 / 4), b64Char (b0 % 4 * 16), '=', '=']
  | [b0, b1] => [b64Char (b0 / 4), b64Char (b0 % 4 * 16 + b1 / 16),
      b64Char (b1 % 16 * 4), '=']
  | b0 :: b1 :: b2 :: rest =>
    b64Char (b0 / 4) :: b64Char (b0 % 4 * 16 + b1 / 16)
      :: b64Char (b1 % 16 * 4 + b2 / 64) :: b64Char (b2 % 64)
      :: base64Encode rest

/-- Model of `os.path.basename` (POSIX separator). -/
def basename (p : List Char) : List Char := ((pySplit '/' p).getLast?).getD p

/-- Extension of a file name as `os.path.splitext` computes it (empty for
a leading-dot-only name). -/
def extOf (name : List Char) : List Char :=
  if ('.' ∈ name.drop 1) then
    '.' :: (name.reverse.takeWhile (fun c => c ≠ '.')).reverse
  else []

/-- Restriction of the `mimetypes` table to common types; everything else
falls back to `application/octet-stream` exactly as in the source. -/
def mimeTable : List (List Char × List Char) :=
  [(".pdf".data, "application/pdf".data),
   (".png".data, "image/png".data),
   (".jpg".data, "image/jpeg".data),
   (".jpeg".data, "image/jpeg".data),
   (".txt".data, "text/plain".data),
   (".html".data, "text/html".data)]

/-- Model of `mimetypes.guess_type(path)[0] or "application/octet-stream"`
(src/app.py lines 85-87). -/
def guessContentType (path : List Char) : List Char :=
  ((mimeTable.find? (fun p => p.1 = pyLower (extOf (basename path)))).map
    (fun p => p.2)).getD "application/octet-stream".data

/-- Model of `file_to_base64` (src/app.py lines 84-90); the file system is
an explicit map from paths to byte contents. -/
def file_to_base64 (fs : List Char → Option (List Nat)) (path : List Char) :
    List Char × List Char :=
  (base64Encode ((fs path).getD []), guessContentType path)

/-- Graph file attachment block. -/
structure Attachment where
  odataType : List Char
  name : List Char
  contentType : List Char
  contentBytes : List Char
deriving DecidableEq, Repr

/-- The `message` object of the Graph payload. -/
structure GraphMessage where
  subject : List Char
  bodyContentType : List Char
  bodyContent : List Char
  toRecipients : List Recipient
  ccRecipients : List Recipient
  attachments : Option (List Attachment)
deriving DecidableEq, Repr

/-- The full sendMail payload. -/
structure Payload where
  message : GraphMessage
  saveToSentItems : Bool
deriving DecidableEq, Repr

/-- CC cleaning loop of `build_graph_message` (src/app.py lines 96-106):
normalize each address, drop the primary, dedup via `seen`. -/
def cleanCCAux (to_addr : List Char) :
    List (List Char) → List Recipient → List Recipient
  | _, [] => []
  | seen, r :: rest =>
    if pyLower (pyStrip r.address) = to_addr then cleanCCAux to_addr seen rest
    else if pyLower (pyStrip r.address) ∈ seen then cleanCCAux to_addr seen rest
    else ⟨pyLower (pyStrip r.address)⟩
      :: cleanCCAux to_addr (pyLower (pyStrip r.address) :: seen) rest

/-- Model of `build_graph_message` (src/app.py lines 92-127). -/
def build_graph_message (fs : List Char → Option (List Nat))
    (to_addr subject body_html : List Char) (attachment_path : List Char)
    (cc_list : List Recipient) : Payload :=
  if attachment_path ≠ [] ∧ (fs attachment_path).isSome then
    { message :=
      { subject := subject
        bodyContentType := "HTML".data
        bodyContent := body_html
        toRecipients := [⟨pyLower (pyStrip to_addr)⟩]
        ccRecipients := cleanCCAux (pyLower (pyStrip to_addr)) [] cc_list
        attachments := Option.some [
          { odataType := "#microsoft.graph.fileAttachment".data
            name := basename attachment_path
            contentType := (file_to_base64 fs attachment_path).2
            contentBytes := (file_to_base64 fs attachment_path).1 }] }
      saveToSentItems := true }
  else
    { message :=
      { subject := subject
        bodyContentType := "HTML".data
        bodyContent := body_html
        toRecipients := [⟨pyLower (pyStrip to_addr)⟩]
        ccRecipients := cleanCCAux (pyLower (pyStrip to_addr)) [] cc_list
        attachments := Option.none }
      saveToSentItems := true }

/-- Outcome of one `requests.post` to the sendMail endpoint: an HTTP
response with status code and body text, or a transport-level exception
with its message. -/
inductive SendResult where
  | http : Nat → List Char → SendResult
  | transportError : List Char → SendResult
deriving DecidableEq, Repr

/-- Error text of the `RuntimeError` raised by `send_mail_graph`
(src/app.py line 133). -/
def graphFailMsg (code : Nat) (text : List Char) : List Char :=
  "Graph sendMail başarısız: ".data ++ (Nat.repr code).data
    ++ " - ".data ++ text

/-- Model of `send_mail_graph` (src/app.py lines 129-133): success exactly
for status 202 or 200, otherwise the raised error (transport exceptions
from `requests.post` propagate as such). -/
def send_mail_graph : SendResult → Except (List Char) Unit
  | SendResult.http code text =>
    if code = 202 ∨ code = 200 then Except.ok ()
    else Except.error (graphFailMsg code text)
  | SendResult.transportError msg => Except.error msg

/-- One log line of the run, structured by its shape in the source. -/
inductive LogEntry where
  | skipPaid : List Char → LogEntry
  | templateNotFound : List Char → List Char → LogEntry
  | dry : List Char → List Char → List Char → List (List Char) → LogEntry
  | okSent : List Char → List Char → LogEntry
  | sendError : List Char → List Char → LogEntry
deriving DecidableEq, Repr

/-- Python single quote (written by code point to keep the source plain). -/
def quoteChar : Char := Char.ofNat 39

/-- Join strings with a separator (for the printed CC list). -/
def joinSep (sep : List Char) : List (List Char) → List Char
  | [] => []
  | [a] => a
  | a :: b :: rest => a ++ sep ++ joinSep sep (b :: rest)

/-- Python `repr` of a list of strings, as an f-string renders it:
`['a', 'b']`. -/
def pyReprStrList (l : List (List Char)) : List Char :=
  '[' :: (joinSep ", ".data (l.map (fun s => quoteChar :: s ++ [quoteChar])))
    ++ "]".data

/-- The f-string text of each log line (src/app.py lines 222, 228, 238,
244, 246). -/
def renderLog : LogEntry → List Char
  | LogEntry.skipPaid e => "SKIP Paid: ".data ++ e
  | LogEntry.templateNotFound k e =>
    "ERROR template not found: ".data ++ k ++ " -> ".data ++ e
  | LogEntry.dry e k p cc =>
    "[DRY] ".data ++ e ++ " | ".data ++ k ++ " | ".data ++ p
      ++ " | CC:".data ++ pyReprStrList cc
  | LogEntry.okSent e k => "OK ".data ++ e ++ " (".data ++ k ++ ")".data
  | LogEntry.sendError e m => "ERROR ".data ++ e ++ ": ".data ++ m

/-- Run configuration: the loaded template store, the radio-selected
default, the dry-run toggle, the run date string, and the local file
system for attachments. -/
structure RunCfg where
  templates : List (List Char × Template)
  default_template : Option (List Char)
  dry_run : Bool
  now_str : List Char
  fs : List Char → Option (List Nat)

/-- Lookup in the template store (`templates.get(tkey)`); an absent key is
`none` (a template that is an empty JSON object is not modelled, the store
maps keys to complete templates). -/
def lookupTemplate (ts : List (List Char × Template)) (k : List Char) :
    Option Template :=
  (ts.find? (fun p => p.1 = k)).map (fun p => p.2)

/-- The argument `parse_recipients` receives for a cell
(`row.get("cc", "")`): Python `None` stays `None`, anything else is kept
and stringified inside the normalizer. -/
def cellToOpt : Cell → Option (List Char)
  | Cell.none => Option.none
  | c => Option.some (pyStr c)

/-- Bookkeeping block of the loop (src/app.py lines 249-258), shared by
the dry-run and the successful-send paths: set `last_sent`, re-read and
cap `reminders_sent`, set `last_template_sent`, `report_note` and the
per-template flag column.  The `int(...)` on line 250 sits outside the
per-row `try`, so its `ValueError` propagates (modelled as
`Except.error`). -/
def applyBookkeeping (now : List Char) (row : Row) (tkey : List Char) :
    Except PyErr Row :=
  match readReminders (rowGet row "reminders_sent".data (Cell.int 0)) with
  | Option.none => Except.error (PyErr.valueError
      ("invalid literal for int() with base 10: ".data
        ++ pyStr (pyOr (rowGet row "reminders_sent".data (Cell.int 0))
          (Cell.int 0))))
  | Option.some rs =>
    Except.ok (rowSet (rowSet (rowSet (rowSet (rowSet row
      "last_sent".data (Cell.str now))
      "reminders_sent".data (Cell.int (bookKeepRem rs)))
      "last_template_sent".data (Cell.str tkey))
      "report_note".data (Cell.str (tkey
        ++ " template has been sent on ".data ++ now)))
      (tkey ++ "_template_sent".data) (Cell.bool true))

/-- One iteration of the row loop (src/app.py lines 220-258).  `oracle`
gives the response of the mail endpoint to the n-th network call; `sent`
is the trace of payloads posted so far (its growth is the model of a
network call being made).  Returns the updated row, the log lines
appended for this row, the `sent_count` increment, and the new trace;
`Except.error` models an exception that escapes the loop body and aborts
the run. -/
def processRow (cfg : RunCfg) (oracle : Nat → SendResult)
    (sent : List Payload) (row : Row) :
    Except PyErr (Row × List LogEntry × Nat × List Payload) :=
  if pyLower (pyStr (rowGet row "status".data (Cell.str []))) = "paid".data then
    Except.ok (row, [LogEntry.skipPaid (pyStr (rowGet row "email".data
      (Cell.str [])))], 0, sent)
  else
    match choose_template row cfg.default_template with
    | Except.error e => Except.error e
    | Except.ok tkey =>
      match lookupTemplate cfg.templates tkey with
      | Option.none => Except.ok (row, [LogEntry.templateNotFound tkey
          (pyStr (rowGet row "email".data (Cell.str [])))], 0, sent)
      | Option.some tpl =>
        match format_template tpl row with
        | Except.error e => Except.error e
        | Except.ok sb =>
          let pdf_path := pyStrip (pyStr (rowGet row "invoice_pdf".data
            (Cell.str [])))
          let to_addr := pyLower (pyStrip (pyStr (rowGet row "email".data
            (Cell.str []))))
          let cc_list := (parse_recipients (cellToOpt (rowGet row "cc".data
            (Cell.str [])))).filter
              (fun r => pyLower r.address ≠ to_addr)
          if cfg.dry_run then
            match applyBookkeeping cfg.now_str row tkey with
            | Except.error e => Except.error e
            | Except.ok row2 => Except.ok (row2,
                [LogEntry.dry (pyStr (rowGet row "email".data (Cell.str [])))
                  tkey pdf_path (cc_list.map (fun r => r.address))], 0, sent)
          else
            match send_mail_graph (oracle sent.length) with
            | Except.ok _ =>
              match applyBookkeeping cfg.now_str row tkey with
              | Except.error e => Except.error e
              | Except.ok row2 => Except.ok (row2,
                  [LogEntry.okSent (pyStr (rowGet row "email".data
                    (Cell.str []))) tkey], 1,
                  sent ++ [build_graph_message cfg.fs to_addr sb.1 sb.2
                    pdf_path cc_list])
            | Except.error e => Except.ok (row,
                [LogEntry.sendError (pyStr (rowGet row "email".data
                  (Cell.str []))) e], 0,
                sent ++ [build_graph_message cfg.fs to_addr sb.1 sb.2
                  pdf_path cc_list])

/-- The whole row loop: rows in input order, strictly sequential. -/
def processRows (cfg : RunCfg) (oracle : Nat → SendResult) :
    List Payload → List Row →
    Except PyErr (List Row × List LogEntry × Nat × List Payload)
  | sent, [] => Except.ok ([], [], 0, sent)
  | sent, row :: rest =>
    match processRow cfg oracle sent row with
    | Except.error e => Except.error e
    | Except.ok (row2, logs1, n1, sent1) =>
      match processRows cfg oracle sent1 rest with
      | Except.error e => Except.error e
      | Except.ok (rows2, logs2, n2, sent2) =>
        Except.ok (row2 :: rows2, logs1 ++ logs2, n1 + n2, sent2)

lemma rowGet_rowSet_self (row : Row) (k : List Char) (v d : Cell) :
    rowGet (rowSet row k v) k d = v := by
  rw [rowSet]
  by_cases hf : (row.find? (fun p => p.1 = k)).isSome
  · rw [if_pos hf]
    induction row with
    | nil => simp at hf
    | cons a t ih =>
      by_cases hak : a.1 = k
      · rw [List.map_cons, if_pos hak, rowGet]
        simp
      · rw [List.map_cons, if_neg hak]
        rw [List.find?_cons_of_neg _ (by simpa using hak)] at hf
        have := ih hf
        rw [rowGet] at this ⊢
        rwa [List.find?_cons_of_neg _ (by simpa using hak)]
  · rw [if_neg hf]
    induction row with
    | nil =>
      rw [List.nil_append, rowGet, List.find?_cons_of_pos _ (by simp)]
    | cons a t ih =>
      by_cases hak : a.1 = k
      · exact absurd (by rw [List.find?_cons_of_pos _ (by simpa using hak)]; rfl) hf
      · rw [List.cons_append, rowGet,
          List.find?_cons_of_neg _ (by simpa using hak)]
        rw [List.find?_cons_of_neg _ (by simpa using hak)] at hf
        have := ih hf
        rwa [rowGet] at this

lemma find?_map_preserve {t : Row} {k k' : List Char} {v : Cell}
    (h : k' ≠ k) :
    List.find? (fun p => p.1 = k')
        (t.map (fun p => if p.1 = k then (k, v) else p))
      = List.find? (fun p => p.1 = k') t := by
  induction t with
  | nil => rfl
  | cons a t ih =>
    rw [List.map_cons]
    by_cases hak : a.1 = k
    · rw [if_pos hak,
        List.find?_cons_of_neg _ (by simpa using fun he => h he.symm),
        List.find?_cons_of_neg _ (by
          simp only [decide_eq_true_eq]
          intro he
          exact h (by rw [← he]; exact hak)),
        ih]
    · rw [if_neg hak]
      by_cases hak' : a.1 = k'
      · rw [List.find?_cons_of_pos _ (by simpa using hak'),
          List.find?_cons_of_pos _ (by simpa using hak')]
      · rw [List.find?_cons_of_neg _ (by simpa using hak'),
          List.find?_cons_of_neg _ (by simpa using hak'), ih]

lemma rowGet_rowSet_other (row : Row) (k k' : List Char) (v d : Cell)
    (h : k' ≠ k) : rowGet (rowSet row k v) k' d = rowGet row k' d := by
  rw [rowSet]
  by_cases hf : (row.find? (fun p => p.1 = k)).isSome
  · rw [if_pos hf, rowGet, rowGet, find?_map_preserve h]
  · rw [if_neg hf, rowGet, rowGet, List.find?_append]
    cases hr : row.find? (fun p => p.1 = k') with
    | some p => rfl
    | none =>
      rw [List.find?_cons_of_neg _ (by simpa using fun he => h he.symm),
        List.find?_nil]
      rfl

lemma cleanCCAux_spec (toA : List Char) : ∀ (cc : List Recipient)
    (seen : List (List Char)),
    ((cleanCCAux toA seen cc).map (fun r => r.address)).Nodup
    ∧ ∀ a ∈ (cleanCCAux toA seen cc).map (fun r => r.address),
        a ≠ toA ∧ a ∉ seen := by
  intro cc
  induction cc with
  | nil => intro seen; exact ⟨List.nodup_nil, by simp [cleanCCAux]⟩
  | cons r rest ih =>
    intro seen
    by_cases h1 : pyLower (pyStrip r.address) = toA
    · rw [cleanCCAux, if_pos h1]
      exact ih seen
    · by_cases h2 : pyLower (pyStrip r.address) ∈ seen
      · rw [cleanCCAux, if_neg h1, if_pos h2]
        exact ih seen
      · rw [cleanCCAux, if_neg h1, if_neg h2, List.map_cons]
        have ihs := ih (pyLower (pyStrip r.address) :: seen)
        constructor
        · refine List.nodup_cons.mpr ⟨?_, ihs.1⟩
          intro hmem
          exact (ihs.2 _ hmem).2 (List.mem_cons_self _ _)
        · intro a ha
          rcases List.mem_cons.mp ha with rfl | ha2
          · exact ⟨h1, h2⟩
          · have h3 := ihs.2 a ha2
            exact ⟨h3.1, fun hs => h3.2 (List.mem_cons_of_mem _ hs)⟩

lemma build_graph_message_fields (fs : List Char → Option (List Nat))
    (to_addr subject body_html attachment_path : List Char)
    (cc_list : List Recipient) :
    (build_graph_message fs to_addr subject body_html attachment_path
        cc_list).message.toRecipients = [⟨pyLower (pyStrip to_addr)⟩]
    ∧ (build_graph_message fs to_addr subject body_html attachment_path
        cc_list).message.ccRecipients
      = cleanCCAux (pyLower (pyStrip to_addr)) [] cc_list := by
  rw [build_graph_message]
  split_ifs <;> exact ⟨rfl, rfl⟩

/-- C7: for every primary address and CC list the payload's `to` is the
trimmed lower-cased primary, the payload's CC addresses are deduplicated,
and none of them equals the normalized primary — each CC entry is itself
normalized before comparison, so a CC copy of the primary in any letter
case is removed. -/
theorem build_message_cc_clean (fs : List Char → Option (List Nat))
    (to_addr subject body_html attachment_path : List Char)
    (cc_list : List Recipient) :
    (build_graph_message fs to_addr subject body_html attachment_path
        cc_list).message.toRecipients = [⟨pyLower (pyStrip to_addr)⟩]
    ∧ (((build_graph_message fs to_addr subject body_html attachment_path
        cc_list).message.ccRecipients).map (fun r => r.address)).Nodup
    ∧ pyLower (pyStrip to_addr) ∉ ((build_graph_message fs to_addr subject
        body_html attachment_path cc_list).message.ccRecipients).map
          (fun r => r.address) := by
  have hfields := build_graph_message_fields fs to_addr subject body_html
    attachment_path cc_list
  refine ⟨hfields.1, ?_, ?_⟩
  · rw [hfields.2]
    exact (cleanCCAux_spec _ cc_list []).1
  · rw [hfields.2]
    intro hmem
    exact ((cleanCCAux_spec _ cc_list []).2 _ hmem).1 rfl

/-- C9 (amended): when the attachment path names a file that does not
exist, the payload carries no attachment block and is identical to the
payload built with no attachment path at all — the send proceeds
unchanged, and no warning is surfaced anywhere (the builder's only output
is this payload). -/
theorem build_missing_attachment (fs : List Char → Option (List Nat))
    (to_addr subject body_html attachment_path : List Char)
    (cc_list : List Recipient) (h : fs attachment_path = Option.none) :
    build_graph_message fs to_addr subject body_html attachment_path cc_list
      = build_graph_message fs to_addr subject body_html [] cc_list
    ∧ (build_graph_message fs to_addr subject body_html attachment_path
        cc_list).message.attachments = Option.none := by
  have hc1 : ¬(attachment_path ≠ [] ∧ (fs attachment_path).isSome) := by
    intro hc
    rw [h] at hc
    exact absurd hc.2 (by simp)
  have hc2 : ¬(([] : List Char) ≠ [] ∧ (fs ([] : List Char)).isSome) :=
    fun hc => hc.1 rfl
  rw [build_graph_message, build_graph_message, if_neg hc1, if_neg hc2]
  exact ⟨rfl, rfl⟩

/-- C9 witness: a concrete missing file is dropped from the payload. -/
theorem build_missing_attachment_witness :
    build_graph_message (fun _ => Option.none) "A@x.com ".data "s".data
        "b".data "missing.pdf".data [⟨"c@y.com".data⟩]
      = build_graph_message (fun _ => Option.none) "A@x.com ".data "s".data
        "b".data [] [⟨"c@y.com".data⟩]
    ∧ (build_graph_message (fun _ => Option.none) "A@x.com ".data "s".data
        "b".data "missing.pdf".data [⟨"c@y.com".data⟩]).message.attachments
      = Option.none :=
  build_missing_attachment (fun _ => Option.none) "A@x.com ".data "s".data
    "b".data "missing.pdf".data [⟨"c@y.com".data⟩] rfl

/-- C6 (amended): a missing `reminders_sent` column (the `row.get`
default), a `None` cell, or an empty-string cell is read as 0 by the
selector's banding branch and by the bookkeeping update, and neither
fails; banding then yields `first` and bookkeeping writes
`min(0 + 1, 3) = 1`.  (A non-empty non-numeric cell instead raises
`ValueError` in both places: see the counterexample.) -/
theorem reminders_missing_read_zero (row : Row) (dt : Option (List Char))
    (now tkey : List Char)
    (hcell : rowGet row "reminders_sent".data (Cell.int 0) = Cell.int 0
      ∨ rowGet row "reminders_sent".data (Cell.int 0) = Cell.none
      ∨ rowGet row "reminders_sent".data (Cell.int 0) = Cell.str [])
    (htc : ¬ isTemplateKey (normalizedChoice row))
    (hdt : ¬ dtIsKey dt) :
    readReminders (rowGet row "reminders_sent".data (Cell.int 0))
      = Option.some 0
    ∧ choose_template row dt = Except.ok "first".data
    ∧ (applyBookkeeping now row tkey).map
        (fun row2 => rowGet row2 "reminders_sent".data (Cell.int 0))
      = Except.ok (Cell.int 1) := by
  have hread : readReminders (rowGet row "reminders_sent".data (Cell.int 0))
      = Option.some 0 := by
    rcases hcell with hc | hc | hc <;> rw [hc] <;> rfl
  refine ⟨hread, ?_, ?_⟩
  · rw [choose_template, if_neg htc, if_neg hdt, bandReminders, hread]
    rfl
  · rw [applyBookkeeping, hread]
    simp only [Except.map]
    refine congrArg Except.ok ?_
    have hflag : "reminders_sent".data ≠ tkey ++ "_template_sent".data := by
      intro he
      have hlen := congrArg List.length he
      rw [List.length_append] at hlen
      have h14 : ("reminders_sent".data).length = 14 := by decide
      have h15 : ("_template_sent".data).length = 14 := by decide
      rw [h14, h15] at hlen
      have htnil : tkey = [] := List.length_eq_zero.mp (by omega)
      rw [htnil, List.nil_append] at he
      exact absurd he (by decide)
    rw [rowGet_rowSet_other _ _ _ _ _ hflag,
      rowGet_rowSet_other _ _ _ _ _ (by decide),
      rowGet_rowSet_other _ _ _ _ _ (by decide),
      rowGet_rowSet_self]
    rfl

lemma processRows_cons (cfg : RunCfg) (oracle : Nat → SendResult)
    (sent : List Payload) (row : Row) (rest : List Row) (r : Row)
    (logs : List LogEntry) (n : Nat) (sent1 : List Payload)
    (h : processRow cfg oracle sent row = Except.ok (r, logs, n, sent1)) :
    processRows cfg oracle sent (row :: rest)
      = (processRows cfg oracle sent1 rest).map
          (fun q => (r :: q.1, logs ++ q.2.1, n + q.2.2.1, q.2.2.2)) := by
  cases hres : processRows cfg oracle sent1 rest with
  | error e2 => simp only [processRows, h, hres, Except.map]
  | ok q =>
    obtain ⟨a, b, c, d⟩ := q
    simp only [processRows, h, hres, Except.map]

lemma startsList_append_self : ∀ (n post : List Char),
    startsList n (n ++ post) = true := by
  intro n
  induction n with
  | nil => intro post; rfl
  | cons a n' ih =>
    intro post
    rw [List.cons_append, startsList]
    simp [ih post]

lemma occursIn_append (needle pre post : List Char) :
    occursIn needle (pre ++ (needle ++ post)) = true := by
  induction pre with
  | nil =>
    rw [List.nil_append]
    cases hne : needle ++ post with
    | nil =>
      have : needle = [] := (List.append_eq_nil.mp hne).1
      rw [this] at hne ⊢
      rfl
    | cons c t =>
      rw [occursIn, ← hne, startsList_append_self]
      rfl
  | cons c pre' ih =>
    rw [List.cons_append, occursIn, ih]
    simp

/-- C3: the send succeeds exactly for HTTP status 200 or 202; a transport
failure propagates its message and any other status raises an error whose
text carries the status code digits and the response body; on such a
failure the row is logged with that error, its bookkeeping fields stay
untouched (the row is returned unchanged), the sent counter does not
move, the network call is traced, and the loop continues with the
remaining rows. -/
theorem send_failure_row_local :
    (∀ (code : Nat) (text : List Char),
      (send_mail_graph (SendResult.http code text) = Except.ok ())
        ↔ (code = 200 ∨ code = 202))
    ∧ (∀ msg : List Char, send_mail_graph (SendResult.transportError msg)
        = Except.error msg)
    ∧ (∀ (code : Nat) (text : List Char), ¬(code = 200 ∨ code = 202) →
        send_mail_graph (SendResult.http code text)
          = Except.error (graphFailMsg code text)
        ∧ occursIn (Nat.repr code).data (graphFailMsg code text) = true
        ∧ occursIn text (graphFailMsg code text) = true)
    ∧ (∀ (cfg : RunCfg) (oracle : Nat → SendResult) (sent : List Payload)
        (row : Row) (rest : List Row) (tkey : List Char) (tpl : Template)
        (sb : List Char × List Char) (e : List Char),
        cfg.dry_run = false →
        pyLower (pyStr (rowGet row "status".data (Cell.str [])))
          ≠ "paid".data →
        choose_template row cfg.default_template = Except.ok tkey →
        lookupTemplate cfg.templates tkey = Option.some tpl →
        format_template tpl row = Except.ok sb →
        send_mail_graph (oracle sent.length) = Except.error e →
        processRows cfg oracle sent (row :: rest)
          = (processRows cfg oracle (sent ++ [build_graph_message cfg.fs
              (pyLower (pyStrip (pyStr (rowGet row "email".data
                (Cell.str []))))) sb.1 sb.2
              (pyStrip (pyStr (rowGet row "invoice_pdf".data (Cell.str []))))
              ((parse_recipients (cellToOpt (rowGet row "cc".data
                (Cell.str [])))).filter (fun r => pyLower r.address
                  ≠ pyLower (pyStrip (pyStr (rowGet row "email".data
                    (Cell.str []))))))]) rest).map
            (fun q => (row :: q.1,
              LogEntry.sendError (pyStr (rowGet row "email".data
                (Cell.str []))) e :: q.2.1, q.2.2.1, q.2.2.2))) := by
  refine ⟨?_, ?_, ?_, ?_⟩
  · intro code text
    rw [send_mail_graph]
    by_cases h : code = 202 ∨ code = 200
    · rw [if_pos h]
      exact ⟨fun _ => h.symm, fun _ => rfl⟩
    · rw [if_neg h]
      exact ⟨fun hcon => Except.noConfusion hcon,
        fun hc => absurd hc.symm h⟩
  · intro msg
    rfl
  · intro code text h
    refine ⟨?_, ?_, ?_⟩
    · rw [send_mail_graph, if_neg (fun hc => h hc.symm)]
    · rw [graphFailMsg]
      have hsplit : "Graph sendMail başarısız: ".data ++ (Nat.repr code).data
          ++ " - ".data ++ text
          = "Graph sendMail başarısız: ".data ++ ((Nat.repr code).data
            ++ (" - ".data ++ text)) := by
        simp [List.append_assoc]
      rw [hsplit, occursIn_append]
    · rw [graphFailMsg]
      have hsplit : "Graph sendMail başarısız: ".data ++ (Nat.repr code).data
          ++ " - ".data ++ text
          = ("Graph sendMail başarısız: ".data ++ (Nat.repr code).data
            ++ " - ".data) ++ (text ++ []) := by
        simp [List.append_assoc]
      rw [hsplit, occursIn_append]
  · intro cfg oracle sent row rest tkey tpl sb e hdry hpaid hck htpl hfmt hsend
    have hrow : processRow cfg oracle sent row = Except.ok (row,
        [LogEntry.sendError (pyStr (rowGet row "email".data
          (Cell.str []))) e], 0,
        sent ++ [build_graph_message cfg.fs
          (pyLower (pyStrip (pyStr (rowGet row "email".data
            (Cell.str []))))) sb.1 sb.2
          (pyStrip (pyStr (rowGet row "invoice_pdf".data (Cell.str []))))
          ((parse_recipients (cellToOpt (rowGet row "cc".data
            (Cell.str [])))).filter (fun r => pyLower r.address
              ≠ pyLower (pyStrip (pyStr (rowGet row "email".data
                (Cell.str []))))))]) := by
      simp only [processRow, if_neg hpaid, hck, htpl, hfmt, hdry, hsend,
        Bool.false_eq_true, if_false]
    rw [processRows_cons cfg oracle sent row rest _ _ _ _ hrow]
    have hfun : (fun (q : List Row × List LogEntry × Nat × List Payload) =>
          (row :: q.1, [LogEntry.sendError (pyStr (rowGet row "email".data
            (Cell.str []))) e] ++ q.2.1, 0 + q.2.2.1, q.2.2.2))
        = (fun (q : List Row × List LogEntry × Nat × List Payload) =>
          (row :: q.1, LogEntry.sendError (pyStr (rowGet row "email".data
            (Cell.str []))) e :: q.2.1, q.2.2.1, q.2.2.2)) := by
      funext q
      simp
    rw [hfun]

/-- Concrete live-mode run: one `first` template, no files on disk. -/
def cfg3 : RunCfg := RunCfg.mk [("first".data, ⟨"s".data, "b".data⟩)]
  (Option.some "first".data) false "d".data (fun _ => Option.none)

/-- Concrete unpaid row with no CC and no attachment. -/
def row3 : Row := [("email".data, Cell.str "a@x.com".data),
  ("status".data, Cell.str "unpaid".data)]

/-- Endpoint that always rate-limits. -/
def oracle3 : Nat → SendResult :=
  fun _ => SendResult.http 429 "Too Many Requests".data

/-- C3 witness: a 429 response leaves the row untouched, logs the error
text, counts no send, and the run finishes normally. -/
theorem send_failure_row_local_witness :
    processRows cfg3 oracle3 [] [row3]
      = Except.ok ([row3],
        [LogEntry.sendError "a@x.com".data
          (graphFailMsg 429 "Too Many Requests".data)], 0,
        [build_graph_message cfg3.fs "a@x.com".data "s".data "b".data
          [] []]) := by
  have h := send_failure_row_local.2.2.2 cfg3 oracle3 [] row3 []
    "first".data ⟨"s".data, "b".data⟩ ("s".data, "b".data)
    (graphFailMsg 429 "Too Many Requests".data) rfl (by decide) (by decide)
    (by decide) (by decide) (by decide)
  rw [h]
  rfl

/-- C8: for a non-skipped dry-run row with a found template and a clean
render and bookkeeping, the loop body performs no network call (the trace
is unchanged and the outcome does not depend on the endpoint at all),
appends exactly one `[DRY]`-prefixed log line carrying recipient, template
key, attachment path and CC list, and writes the very same updated row
that a successful live send would write. -/
theorem dry_run_no_network_and_updates (cfg : RunCfg)
    (oracle : Nat → SendResult) (sent : List Payload) (row : Row)
    (tkey : List Char) (tpl : Template) (sb : List Char × List Char)
    (row2 : Row)
    (hdry : cfg.dry_run = true)
    (hpaid : pyLower (pyStr (rowGet row "status".data (Cell.str [])))
      ≠ "paid".data)
    (hck : choose_template row cfg.default_template = Except.ok tkey)
    (htpl : lookupTemplate cfg.templates tkey = Option.some tpl)
    (hfmt : format_template tpl row = Except.ok sb)
    (happ : applyBookkeeping cfg.now_str row tkey = Except.ok row2) :
    processRow cfg oracle sent row = Except.ok (row2,
        [LogEntry.dry (pyStr (rowGet row "email".data (Cell.str []))) tkey
          (pyStrip (pyStr (rowGet row "invoice_pdf".data (Cell.str []))))
          (((parse_recipients (cellToOpt (rowGet row "cc".data
            (Cell.str [])))).filter (fun r => pyLower r.address
              ≠ pyLower (pyStrip (pyStr (rowGet row "email".data
                (Cell.str [])))))).map (fun r => r.address))], 0, sent)
    ∧ (∀ oracle2 : Nat → SendResult,
        processRow cfg oracle2 sent row = processRow cfg oracle sent row)
    ∧ (renderLog (LogEntry.dry (pyStr (rowGet row "email".data
          (Cell.str []))) tkey
          (pyStrip (pyStr (rowGet row "invoice_pdf".data (Cell.str []))))
          (((parse_recipients (cellToOpt (rowGet row "cc".data
            (Cell.str [])))).filter (fun r => pyLower r.address
              ≠ pyLower (pyStrip (pyStr (rowGet row "email".data
                (Cell.str [])))))).map (fun r => r.address)))).take 6
        = "[DRY] ".data
    ∧ (∀ oracle2 : Nat → SendResult,
        send_mail_graph (oracle2 sent.length) = Except.ok () →
        processRow (RunCfg.mk cfg.templates cfg.default_template false
            cfg.now_str cfg.fs) oracle2 sent row
          = Except.ok (row2, [LogEntry.okSent (pyStr (rowGet row
              "email".data (Cell.str []))) tkey], 1,
              sent ++ [build_graph_message cfg.fs (pyLower (pyStrip (pyStr
                (rowGet row "email".data (Cell.str []))))) sb.1 sb.2
                (pyStrip (pyStr (rowGet row "invoice_pdf".data
                  (Cell.str []))))
                ((parse_recipients (cellToOpt (rowGet row "cc".data
                  (Cell.str [])))).filter (fun r => pyLower r.address
                    ≠ pyLower (pyStrip (pyStr (rowGet row "email".data
                      (Cell.str []))))))])) := by
  have key : ∀ o : Nat → SendResult, processRow cfg o sent row
      = Except.ok (row2,
        [LogEntry.dry (pyStr (rowGet row "email".data (Cell.str []))) tkey
          (pyStrip (pyStr (rowGet row "invoice_pdf".data (Cell.str []))))
          (((parse_recipients (cellToOpt (rowGet row "cc".data
            (Cell.str [])))).filter (fun r => pyLower r.address
              ≠ pyLower (pyStrip (pyStr (rowGet row "email".data
                (Cell.str [])))))).map (fun r => r.address))], 0, sent) := by
    intro o
    simp only [processRow, if_neg hpaid, hck, htpl, hfmt, hdry, happ, if_true]
  refine ⟨key oracle, fun o2 => (key o2).trans (key oracle).symm, rfl, ?_⟩
  intro o2 hok
  simp only [processRow, if_neg hpaid, hck, htpl, hfmt, hok, happ,
    Bool.false_eq_true, if_false]

/-- Concrete dry-run configuration. -/
def cfg8 : RunCfg := RunCfg.mk [("first".data, ⟨"s".data, "b".data⟩)]
  (Option.some "first".data) true "d".data (fun _ => Option.none)

/-- Concrete row: open status, one prior reminder, CC containing the
primary in upper case plus one other address. -/
def row8 : Row := [("email".data, Cell.str "a@x.com".data),
  ("status".data, Cell.str "open".data),
  ("reminders_sent".data, Cell.int 1),
  ("cc".data, Cell.str "B@y.com; a@x.com".data)]

/-- The row `row8` after bookkeeping: `last_sent` and the report columns
appended, `reminders_sent` capped update to 2. -/
def row8fin : Row := [("email".data, Cell.str "a@x.com".data),
  ("status".data, Cell.str "open".data),
  ("reminders_sent".data, Cell.int 2),
  ("cc".data, Cell.str "B@y.com; a@x.com".data),
  ("last_sent".data, Cell.str "d".data),
  ("last_template_sent".data, Cell.str "first".data),
  ("report_note".data, Cell.str "first template has been sent on d".data),
  ("first_template_sent".data, Cell.bool true)]

/-- C8 witness: the dry-run row is logged once with the `[DRY]` fields,
no payload is posted, and the bookkeeping columns are written. -/
theorem dry_run_no_network_and_updates_witness :
    processRow cfg8 oracle3 [] row8 = Except.ok (row8fin,
      [LogEntry.dry "a@x.com".data "first".data [] ["b@y.com".data]],
      0, []) := by
  have h := (dry_run_no_network_and_updates cfg8 oracle3 [] row8
    "first".data ⟨"s".data, "b".data⟩ ("s".data, "b".data) row8fin rfl
    (by decide) (by decide) (by decide) (by decide) (by decide)).1
  rw [h]
  rfl

/-- Dry-run configuration whose only template references the placeholder
`client_name`, which is outside the renderer's vocabulary. -/
def cfg5 : RunCfg := RunCfg.mk
  [("first".data, ⟨"Hi {client_name}".data, "b".data⟩)]
  (Option.some "first".data) true "d".data (fun _ => Option.none)

/-- First unpaid row of the two-row table. -/
def row5a : Row := [("email".data, Cell.str "a@x.com".data)]

/-- Second unpaid row of the two-row table. -/
def row5b : Row := [("email".data, Cell.str "b@y.com".data)]

/-- C5: evaluating the run at the failing input shows the divergence: the
unknown placeholder `client_name` raises a `KeyError` that is NOT confined
to the affected row — `format_template` is called outside the per-row
`try` (src/app.py line 231), so the whole run aborts before the second
row is processed, and the error names only the key, not the row. -/
theorem render_error_aborts_run :
    processRows cfg5 (fun _ => SendResult.http 200 []) [] [row5a, row5b]
      = Except.error (PyErr.keyError "client_name".data) := rfl

/-- Dry-run configuration with a valid `first` template. -/
def cfg6 : RunCfg := RunCfg.mk [("first".data, ⟨"s".data, "b".data⟩)]
  (Option.some "first".data) true "d".data (fun _ => Option.none)

/-- Row whose `reminders_sent` cell holds the non-numeric string `abc`. -/
def row6bad : Row := [("email".data, Cell.str "a@x.com".data),
  ("reminders_sent".data, Cell.str "abc".data)]

/-- C6 counterexample: a non-numeric `reminders_sent` is NOT read as 0 —
the `int(...)` of the bookkeeping update (src/app.py line 250, outside the
per-row `try`) raises `ValueError` and the whole run aborts. -/
theorem reminders_nonnumeric_aborts :
    processRows cfg6 (fun _ => SendResult.http 200 []) [] [row6bad]
      = Except.error (PyErr.valueError
        "invalid literal for int() with base 10: abc".data) := rfl

/-- Row with no `reminders_sent` column at all. -/
def row6 : Row := [("email".data, Cell.str "e@x".data)]

/-- C6 witness: with the column missing, both reads give 0, banding gives
`first`, and bookkeeping writes 1. -/
theorem reminders_missing_read_zero_witness :
    readReminders (rowGet row6 "reminders_sent".data (Cell.int 0))
      = Option.some 0
    ∧ choose_template row6 Option.none = Except.ok "first".data
    ∧ (applyBookkeeping "d".data row6 "first".data).map
        (fun row2 => rowGet row2 "reminders_sent".data (Cell.int 0))
      = Except.ok (Cell.int 1) :=
  reminders_missing_read_zero row6 Option.none "d".data "first".data
    (Or.inl (by decide)) (by decide) (by decide)

/-- Live configuration with no files on disk. -/
def cfg9 : RunCfg := RunCfg.mk [("first".data, ⟨"s".data, "b".data⟩)]
  (Option.some "first".data) false "d".data (fun _ => Option.none)

/-- Row whose `invoice_pdf` names a file that does not exist. -/
def row9 : Row := [("email".data, Cell.str "a@x.com".data),
  ("invoice_pdf".data, Cell.str "missing.pdf".data)]

/-- The row `row9` after the successful send's bookkeeping. -/
def row9fin : Row := [("email".data, Cell.str "a@x.com".data),
  ("invoice_pdf".data, Cell.str "missing.pdf".data),
  ("last_sent".data, Cell.str "d".data),
  ("reminders_sent".data, Cell.int 1),
  ("last_template_sent".data, Cell.str "first".data),
  ("report_note".data, Cell.str "first template has been sent on d".data),
  ("first_template_sent".data, Cell.bool true)]

/-- The payload actually posted for `row9`: no attachment block. -/
def payload9 : Payload :=
  ⟨⟨"s".data, "HTML".data, "b".data, [⟨"a@x.com".data⟩], [],
    Option.none⟩, true⟩

/-- C9 counterexample: with the attachment file missing, the send still
happens and succeeds, the payload has no attachment block, and no warning
is surfaced anywhere — the run's entire log is the single OK line, and the
builder's output is identical to the one for an empty attachment path. -/
theorem attachment_missing_no_warning :
    processRows cfg9 (fun _ => SendResult.http 200 []) [] [row9]
      = Except.ok ([row9fin],
        [LogEntry.okSent "a@x.com".data "first".data], 1, [payload9])
    ∧ payload9.message.attachments = Option.none
    ∧ build_graph_message cfg9.fs "a@x.com".data "s".data "b".data
        "missing.pdf".data []
      = build_graph_message cfg9.fs "a@x.com".data "s".data "b".data
        [] [] := by
  exact ⟨rfl, rfl, rfl⟩

/-- C10 witness: the round trip holds on a messy concrete CC string. -/
theorem parse_recipients_idempotent_witness :
    parse_recipients (Option.some (joinComma ((parse_recipients
        (Option.some " B@y.com;A@x.com, b@y.com ".data)).map
          (fun r => r.address))))
      = parse_recipients (Option.some " B@y.com;A@x.com, b@y.com ".data) :=
  (parse_recipients_idempotent
    (Option.some " B@y.com;A@x.com, b@y.com ".data)).1
